import Mathlib

/-!
Verification of the ISCOUTB/etl-design Excel-to-SQL core: a shallow
embedding, in Lean 4, of the AST-to-SQL expression translator
(`excel_parsing/ddl-generator/generator.py`, `sql.py`, with the column
addressing helpers of `excel-parsing/ddl-generator/src/services/utils.py`)
and of the dependency-graph / DDL builder
(`excel-parsing/sql-builder/src/services/create_graph.py`,
`src/services/utils.py`, `builder.py`), together with proofs about them.

Modelling conventions, used throughout:
* Python dicts become association lists `List (String × α)`; a dict lookup
  `d[k]` that can raise `KeyError` becomes an `Except String α` whose error
  carries a KeyError-style message; `d.get(k, default)` becomes an `Option`.
* A Python function that can raise returns `Except String α`; the error
  string plays the role of the raised exception's description.  `.error`
  models "the call raised before returning anything".
* Numeric literals in formulas are modelled as `Int`: the source stores the
  raw parsed value in the node's `sql` field and interpolates it with
  `str(...)` inside f-strings, which for the integer literals exercised here
  is `toString`.  (The `value` field, `float(value)` in the source, is not
  modelled: no code under verification reads it.)
* `list(set(xs))` materialises a set in an unspecified order; it is modelled
  by `List.dedup`, which keeps one occurrence of each element.  No theorem
  below depends on the order of the deduplicated list.
-/

/-- The `refType` tag of a cell reference node ("relative", "absolute",
"mixed"). -/
inductive RefType where
  | relative
  | absolute
  | mixed
  deriving DecidableEq, Repr

namespace ColAddr

/-- `cell.replace("$", "")` — strip every dollar sign from a cell key. -/
def stripDollar (s : String) : String :=
  (s.toList.filter (fun c => c ≠ '$')).asString

/-- `get_column_from_cell`: keep the alphabetic characters of a cell
reference, in order (`"".join(filter(str.isalpha, cell))`). -/
def getColumnFromCell (cell : String) : String :=
  (cell.toList.filter Char.isAlpha).asString

/-- `excel_col_to_index`: base-26 conversion of column letters to a 1-based
index, after upper-casing (`index = index * 26 + (ord(char) - ord("A") + 1)`).
Computed in `Int` exactly as Python computes it in unbounded integers. -/
def excelColToIndex (col : String) : Int :=
  col.toList.foldl
    (fun index ch => index * 26 + ((ch.toUpper.toNat : Int) - ('A'.toNat : Int) + 1)) 0

/-- The loop of `index_to_excel_col`, producing the letters most significant
first (the source prepends each new letter: `col = chr(index % 26 + ord("A"))
+ col`).  The Python `while index > 0` loop terminates because the updated
index `(index - 1) // 26` is strictly smaller; we run it structurally on a
fuel argument initialised to the index itself, which those strictly
decreasing updates can never exhaust. -/
def idxAux : Nat → Nat → List Char
  | 0, _ => []
  | fuel + 1, index =>
      if index = 0 then []
      else idxAux fuel ((index - 1) / 26) ++ [Char.ofNat ((index - 1) % 26 + 'A'.toNat)]

/-- `index_to_excel_col`: 1-based index back to column letters.  A
non-positive index never enters the loop and yields `""`, as in the source. -/
def indexToExcelCol (index : Int) : String :=
  (idxAux index.toNat index.toNat).asString

/-- `get_column_range`: the inclusive letter span
`[index_to_excel_col(i) for i in range(start_idx, end_idx + 1)]`. -/
def getColumnRange (start stop : String) : List String :=
  let startIdx := excelColToIndex start
  let endIdx := excelColToIndex stop
  (List.range (endIdx + 1 - startIdx).toNat).map
    (fun k => indexToExcelCol (startIdx + k))

end ColAddr

namespace DdlGen

mutual
/-- The input formula AST of `generator.py` (`dtypes.AST`): a tagged union,
one constructor per `type` tag dispatched by `MAPS` plus the `"text"` tag
that the external interface supplies.  `func` is the `"function"` tag. -/
inductive Ast where
  | binary (operator : String) (left right : Ast)
  | cellRange (left right : Ast)
  | func (name : String) (arguments : AstList)
  | cell (key : String) (refType : RefType)
  | number (value : Int)
  | logical (value : Bool)
  | text (value : String)
inductive AstList where
  | nil
  | cons (head : Ast) (tail : AstList)
end

mutual
/-- The translated node (`*MapsOutput` of `dtypes.py`).  Each constructor
carries exactly the fields the corresponding handler returns; a cell-range
output carries no `sql` field, exactly as `cell_range_maps` returns none. -/
inductive GenNode where
  | binary (operator : String) (left right : GenNode) (sql : String)
  | cellRange (start stop : String) (cells : List String)
      (columns : List String) (error : Option String)
  | func (name : String) (arguments : GenNodeList) (sql : String)
  | cell (cell : String) (refType : RefType) (column : String)
      (error : Option String) (sql : String)
  | number (value : Int)
  | logical (value : Bool) (sql : String)
inductive GenNodeList where
  | nil
  | cons (head : GenNode) (tail : GenNodeList)
end

/-- Reading `node["sql"]` inside an f-string: a cell-range output has no
`sql` key (KeyError); a number's `sql` holds the raw value, which the
f-string renders with `str`. -/
def sqlInFString : GenNode → Except String String
  | .binary _ _ _ sql => .ok sql
  | .cellRange _ _ _ _ _ => .error "KeyError: 'sql'"
  | .func _ _ sql => .ok sql
  | .cell _ _ _ _ sql => .ok sql
  | .number value => .ok (toString value)
  | .logical _ sql => .ok sql

/-- Reading `node["sql"]` as an operand of `str.join`: `join` raises
`TypeError` on a non-string item, so a number's raw `sql` value is an error
here, unlike in an f-string. -/
def sqlForJoin : GenNode → Except String String
  | .binary _ _ _ sql => .ok sql
  | .cellRange _ _ _ _ _ => .error "KeyError: 'sql'"
  | .func _ _ sql => .ok sql
  | .cell _ _ _ _ sql => .ok sql
  | .number _ => .error "TypeError: sequence item: expected str instance"
  | .logical _ sql => .ok sql

/-- `args[i]` on the translated argument list: `IndexError` when too short. -/
def argGet : GenNodeList → Nat → Except String GenNode
  | .nil, _ => .error "IndexError: list index out of range"
  | .cons h _, 0 => .ok h
  | .cons _ t, n + 1 => argGet t n

/-- The `sql` fields of every argument, as `join` reads them
(`" AND ".join(arg["sql"] for arg in args)` fails at the first bad item). -/
def joinSqls : GenNodeList → Except String (List String)
  | .nil => .ok []
  | .cons h t => do
      let s ← sqlForJoin h
      let rest ← joinSqls t
      .ok (s :: rest)

/-- A Python dict lookup in the `{column letter: SQL name}` mapping. -/
def lookupD {α : Type} (l : List (String × α)) (k : String) : Option α :=
  (l.find? (fun p => p.1 == k)).map Prod.snd

/-- `repr(KeyError(k))` as Python prints it for a plain string key. -/
def keyErrRepr (k : String) : String :=
  "KeyError('" ++ k ++ "')"

/-- The list comprehension `[columns[col] for col in range_cell]`: it raises
`KeyError` at the first letter absent from the mapping. -/
def lookupAll (cmap : List (String × String)) : List String → Except String (List String)
  | [] => .ok []
  | c :: rest =>
      match lookupD cmap c with
      | some v =>
          match lookupAll cmap rest with
          | .ok vs => .ok (v :: vs)
          | .error e => .error e
      | none => .error (keyErrRepr c)

/-- `get_sql_from_function` of `sql.py` together with the entries of
`FUNCTION_SQL_MAP` (`SUM`, `IF`, `AND`); an unknown name yields the
`UNSUPPORTED_FUNCTION(name)` sentinel, not an error. -/
def getSqlFromFunction (funcName : String) (args : GenNodeList) : Except String String :=
  let upper := (funcName.toList.map Char.toUpper).asString
  if upper = "SUM" then
    match argGet args 0 with
    | .error e => .error e
    | .ok a0 =>
        match a0 with
        | .cellRange _ _ _ columns _ => .ok (String.intercalate " + " columns)
        | _ => .error "KeyError: 'columns'"
  else if upper = "IF" then
    match argGet args 0 with
    | .error e => .error e
    | .ok a0 =>
        match sqlInFString a0 with
        | .error e => .error e
        | .ok s0 =>
            match argGet args 1 with
            | .error e => .error e
            | .ok a1 =>
                match sqlInFString a1 with
                | .error e => .error e
                | .ok s1 =>
                    match argGet args 2 with
                    | .error e => .error e
                    | .ok a2 =>
                        match sqlInFString a2 with
                        | .error e => .error e
                        | .ok s2 =>
                            .ok ("CASE WHEN " ++ s0 ++ " THEN " ++ s1 ++
                                 " ELSE " ++ s2 ++ " END")
  else if upper = "AND" then
    match joinSqls args with
    | .error e => .error e
    | .ok ss => .ok (String.intercalate " AND " ss)
  else
    .ok ("UNSUPPORTED_FUNCTION(" ++ funcName ++ ")")

open ColAddr

mutual
/-- The `MAPS` dispatcher of `generator.py` together with its handlers
(`binary_maps`, `cell_range_maps`, `function_maps`, `cell_maps`,
`number_maps`, `logical_maps`), as one recursive translation:
* the `"text"` tag has no entry in `MAPS`, so dispatching it raises
  `KeyError` — modelled by the `.error` arm;
* `binary_maps` builds `f"({left['sql']}) {op} ({right['sql']})"` after
  translating both operands;
* `cell_range_maps` calls `cell_maps` on its raw endpoints (raising the
  handler's `ValueError` when an endpoint is not a cell node), spans the
  letters, and resolves the whole span or fails it as one unit;
* `cell_maps` strips `$`, extracts the letters and looks them up, carrying a
  lookup failure inside the returned node (`column = sql = ""`);
* `logical_maps` upper-cases the boolean (`str(value).upper()`).
Each handler's own tag assertion is made unreachable by the typed dispatch,
exactly as the string-keyed dispatch makes it unreachable in the source. -/
def translate (cmap : List (String × String)) : Ast → Except String GenNode
  | .binary op l r =>
      match translate cmap l with
      | .error e => .error e
      | .ok ln =>
          match translate cmap r with
          | .error e => .error e
          | .ok rn =>
              match sqlInFString ln with
              | .error e => .error e
              | .ok sl =>
                  match sqlInFString rn with
                  | .error e => .error e
                  | .ok sr =>
                      .ok (.binary op ln rn
                        ("(" ++ sl ++ ") " ++ op ++ " (" ++ sr ++ ")"))
  | .cellRange l r =>
      match l, r with
      | .cell k1 _, .cell k2 _ =>
          let startCell := stripDollar k1
          let endCell := stripDollar k2
          let rangeCells := getColumnRange (getColumnFromCell startCell)
                              (getColumnFromCell endCell)
          match lookupAll cmap rangeCells with
          | .ok cs => .ok (.cellRange startCell endCell rangeCells cs none)
          | .error e => .ok (.cellRange startCell endCell rangeCells [] (some e))
      | _, _ => .error "ValueError: AST must be of type 'cell'"
  | .func name args =>
      match translateList cmap args with
      | .error e => .error e
      | .ok targs =>
          match getSqlFromFunction name targs with
          | .error e => .error e
          | .ok sql => .ok (.func name targs sql)
  | .cell key refType =>
      let c := stripDollar key
      let letters := getColumnFromCell c
      match lookupD cmap letters with
      | some mapped => .ok (.cell c refType mapped none mapped)
      | none => .ok (.cell c refType "" (some (keyErrRepr letters)) "")
  | .number v => .ok (.number v)
  | .logical b => .ok (.logical b (if b then "TRUE" else "FALSE"))
  | .text _ => .error "KeyError: 'text'"
def translateList (cmap : List (String × String)) : AstList → Except String GenNodeList
  | .nil => .ok .nil
  | .cons h t =>
      match translate cmap h with
      | .error e => .error e
      | .ok hn =>
          match translateList cmap t with
          | .error e => .error e
          | .ok tn => .ok (.cons hn tn)
end

end DdlGen

namespace SqlBuild

mutual
/-- A translated column definition as the sql-builder consumes it
(`dtypes.AllOutputs` of `excel-parsing/sql-builder/dtypes.py`): one
constructor per declared output variant.  `number`'s `sql` is the declared
`str` field; `func` is the `"function"` variant; a `binaryExpression` node's
operands and a `func` node's arguments hold translated nodes, which is what
the generator stores there and what `create_graph.py` reads back
(`arg["type"]`, `arg["columns"]`, ...). -/
inductive SqlNode where
  | cell (cell : String) (refType : RefType) (column : String)
      (error : Option String) (sql : String)
  | cellRange (start stop : String) (cells : List String)
      (columns : List String) (error : Option String)
  | number (value : Int) (sql : String)
  | binaryExpression (operator : String) (left right : SqlNode) (sql : String)
  | func (name : String) (arguments : SqlNodeList) (sql : String)
  | logical (value : Bool) (sql : String)
  | text (value : String) (sql : String)
inductive SqlNodeList where
  | nil
  | cons (head : SqlNode) (tail : SqlNodeList)
end

/-- The record `search_columns_*` return (`dtypes.ColReferences`):
referenced column names, an optional error, and the constants flag. -/
structure ColReferences where
  columns : List String
  error : Option String
  constants : Bool
  deriving DecidableEq, Repr

mutual
/-- The `MAPS_DTYPES` dispatch of `create_graph.py` with its handlers
(`search_columns_cell`, `search_columns_constants`,
`search_columns_function`, `search_columns_binary_expression`):
* a `cell` output contributes its `column` field (its own `error` field is
  not consulted), with `error=None, constants=False`;
* `logical` / `text` / `number` outputs are constants;
* a `function` output collects `MAPS_DTYPES[arg["type"]](arg)["columns"]`
  over its arguments and deduplicates (`list(set(cols))`);
* a `binary-expression` output takes the deduplicated union of its two
  operands' columns (`list(set(left) | set(right))`);
* a `cell-range` output is an error: `MAPS_DTYPES` is keyed by the string
  `"cell_range"`, but the declared type tag of the node (and what the
  generator writes) is `"cell-range"`, so `MAPS_DTYPES[col_type]` raises
  `KeyError` — consequently `search_columns_cell_range` is unreachable
  through the dispatch.
Each reachable handler's own tag check always passes, so the
"Invalid ... mapping type" arms of the source are unreachable here too. -/
def searchColumns : SqlNode → Except String ColReferences
  | .cell _ _ column _ _ => .ok ⟨[column], none, false⟩
  | .cellRange _ _ _ _ _ => .error "KeyError: 'cell-range'"
  | .number _ _ => .ok ⟨[], none, true⟩
  | .binaryExpression _ l r _ =>
      match searchColumns l with
      | .error e => .error e
      | .ok cl =>
          match searchColumns r with
          | .error e => .error e
          | .ok cr => .ok ⟨(cl.columns ++ cr.columns).dedup, none, false⟩
  | .func _ args _ =>
      match searchColumnsList args with
      | .error e => .error e
      | .ok cs => .ok ⟨cs.dedup, none, false⟩
  | .logical _ _ => .ok ⟨[], none, true⟩
  | .text _ _ => .ok ⟨[], none, true⟩
/-- The argument loop of `search_columns_function`:
`cols.extend(MAPS_DTYPES[arg["type"]](arg)["columns"])`. -/
def searchColumnsList : SqlNodeList → Except String (List String)
  | .nil => .ok []
  | .cons h t =>
      match searchColumns h with
      | .error e => .error e
      | .ok ch =>
          match searchColumnsList t with
          | .error e => .error e
          | .ok ct => .ok (ch.columns ++ ct)
end

/-- The igraph directed graph as the builder uses it: named vertices and a
list of directed edges (kept with multiplicity, in insertion order), the
state built by `Graph(directed=True)`, `add_vertices`, `add_edge`. -/
structure SGraph where
  vertices : List String
  edges : List (String × String)
  deriving DecidableEq, Repr

/-- `g.add_edge(a, b)` with vertex names: igraph resolves each name to a
vertex id and raises when no vertex of that name exists. -/
def addEdge (g : SGraph) (a b : String) : Except String SGraph :=
  if a ∈ g.vertices ∧ b ∈ g.vertices then
    .ok ⟨g.vertices, g.edges ++ [(a, b)]⟩
  else
    .error "ValueError: cannot get vertex id of nonexistent name"

/-- The inner edge loop of `create_dependency_graph`:
`for col_ref in cols_refs["columns"]: g.add_edge(col_name, col_ref)`. -/
def addEdges (name : String) (g : SGraph) : List String → Except String SGraph
  | [] => .ok g
  | r :: rest =>
      match addEdge g name r with
      | .ok g' => addEdges name g' rest
      | .error e => .error e

/-- The column loop of `create_dependency_graph`: dispatch the extractor,
skip the column when it reports an error or constants (`if
cols_refs["error"] or cols_refs["constants"]: continue` — the error strings
the extractor can produce are never empty, so Python truthiness coincides
with `isSome`), otherwise add one edge per referenced column. -/
def buildGraphCols (g : SGraph) : List (String × SqlNode) → Except String SGraph
  | [] => .ok g
  | (name, node) :: rest =>
      match searchColumns node with
      | .error e => .error e
      | .ok refs =>
          if refs.error.isSome || refs.constants then buildGraphCols g rest
          else
            match addEdges name g refs.columns with
            | .ok g' => buildGraphCols g' rest
            | .error e => .error e

/-- `create_dependency_graph`: one vertex per column name (dict keys), then
the column loop. -/
def createDependencyGraph (cols : List (String × SqlNode)) : Except String SGraph :=
  buildGraphCols ⟨cols.map Prod.fst, []⟩ cols

/-- Vertex `v` has no incoming edge in `edges`. -/
def noIncoming (edges : List (String × String)) (v : String) : Bool :=
  edges.all (fun e => e.2 != v)

/-- A Kahn-style elimination realising igraph's `is_dag()`: repeatedly
delete every vertex that currently has no incoming edge, together with its
outgoing edges; the graph is a DAG exactly when everything is deleted.  The
fuel, initialised to the vertex count, bounds the rounds; each productive
round removes at least one vertex, so the fuel suffices. -/
def isDagAux : Nat → List String → List (String × String) → Bool
  | 0, verts, _ => verts.isEmpty
  | fuel + 1, verts, edges =>
      if verts.isEmpty then true
      else
        let sources := verts.filter (noIncoming edges)
        if sources.isEmpty then false
        else
          isDagAux fuel (verts.filter (fun v => !sources.contains v))
            (edges.filter (fun e => !sources.contains e.1))

/-- `graph.is_dag()`. -/
def SGraph.isDag (g : SGraph) : Bool :=
  isDagAux g.vertices.length g.vertices g.edges

/-- `has_cyclic_dependencies`: `not graph.is_dag()`. -/
def hasCyclicDependencies (g : SGraph) : Bool :=
  !g.isDag

/-- `get_outgoing_connections`: the adjacency-matrix row sum of the named
vertex — the number of edges (with multiplicity) whose source is that
vertex — and `0` when the name is absent from the vertex list. -/
def getOutgoingConnections (g : SGraph) (sourceNode : String) : Nat :=
  if g.vertices.contains sourceNode then
    (g.edges.filter (fun e => e.1 == sourceNode)).length
  else 0

/-- One entry of the `dtypes` argument of `build_sql`: the SQL type and the
optional `extra` clause (`dtypes[col]['type']`, `dtypes[col].get('extra', '')`). -/
structure ColType where
  type : String
  extra : Option String
  deriving DecidableEq, Repr

/-- A Python dict lookup in an association list keyed by column name. -/
def lookupD {α : Type} (l : List (String × α)) (k : String) : Option α :=
  (l.find? (fun p => p.1 == k)).map Prod.snd

/-- Reading `cols[col]['sql']` in `build_sql`: every declared output variant
carries an `sql` field except `cell-range`, whose access raises `KeyError`. -/
def nodeSqlField : SqlNode → Except String String
  | .cell _ _ _ _ sql => .ok sql
  | .cellRange _ _ _ _ _ => .error "KeyError: 'sql'"
  | .number _ sql => .ok sql
  | .binaryExpression _ _ _ sql => .ok sql
  | .func _ _ sql => .ok sql
  | .logical _ sql => .ok sql
  | .text _ sql => .ok sql

/-- The level-0 loop of `build_sql`: append `f"{col} {type}{extra}"` for
each column, `", "` between entries and `");"` after the last one.  When
the list is empty the loop never runs and nothing (not even the closing
parenthesis) is appended, as in the source. -/
def createColumnsLoop (dt : List (String × ColType)) : List String → Except String String
  | [] => .ok ""
  | [c] =>
      match lookupD dt c with
      | some ct => .ok (c ++ " " ++ ct.type ++ ct.extra.getD "" ++ ");")
      | none => .error ("KeyError('" ++ c ++ "')")
  | c :: rest =>
      match lookupD dt c with
      | some ct =>
          match createColumnsLoop dt rest with
          | .ok s => .ok (c ++ " " ++ ct.type ++ ct.extra.getD "" ++ ", " ++ s)
          | .error e => .error e
      | none => .error ("KeyError('" ++ c ++ "')")

/-- Insertion step of a stable sort by level: the new element goes in front
of the first entry of strictly greater or equal-later level — an element
already in the list keeps its place in front of an equal-level newcomer
inserted behind it, matching Python's stable `sorted(..., key=lambda x: x[1])`. -/
def insertByLevel (x : String × Nat) : List (String × Nat) → List (String × Nat)
  | [] => [x]
  | y :: ys => if x.2 ≤ y.2 then x :: y :: ys else y :: insertByLevel x ys

/-- `sorted(..., key=lambda x: x[1])`: a stable sort of the `(column,
level)` pairs by level. -/
def sortByLevel (l : List (String × Nat)) : List (String × Nat) :=
  l.foldr insertByLevel []

/-- The `ALTER TABLE` loop of `build_sql`: for each non-level-0 column, in
sorted order, emit `ALTER TABLE <t> ADD COLUMN <col> <type><extra>
GENERATED ALWAYS AS <cols[col]['sql']> STORED;` tagged with its level. -/
def buildAlters (cols : List (String × SqlNode)) (dt : List (String × ColType))
    (tableName : String) : List (String × Nat) → Except String (List (Nat × String))
  | [] => .ok []
  | (c, level) :: rest =>
      match lookupD dt c with
      | none => .error ("KeyError('" ++ c ++ "')")
      | some ct =>
          match lookupD cols c with
          | none => .error ("KeyError('" ++ c ++ "')")
          | some node =>
              match nodeSqlField node with
              | .error e => .error e
              | .ok sql =>
                  match buildAlters cols dt tableName rest with
                  | .error e => .error e
                  | .ok rest' =>
                      .ok ((level,
                        "ALTER TABLE " ++ tableName ++ " ADD COLUMN " ++ c ++ " " ++
                        ct.type ++ ct.extra.getD "" ++
                        " GENERATED ALWAYS AS " ++ sql ++ " STORED;") :: rest')

/-- The value `build_sql` returns: the dict `{0: <CREATE TABLE string>,
level: [<ALTER statements>...], ...}` flattened to the CREATE string plus
the `(level, statement)` pairs in emission order — the dict's per-level
lists are recovered by filtering on the level. -/
structure BuildOutput where
  create : String
  alters : List (Nat × String)
  deriving DecidableEq, Repr

/-- `build_sql` of `builder.py`: raise on a cyclic dependency graph before
emitting anything; otherwise compute each column's priority
(`get_outgoing_connections`), render the CREATE TABLE statement from the
priority-0 columns, and render one ALTER TABLE statement per remaining
column in ascending (stable-sorted) level order. -/
def buildSql (cols : List (String × SqlNode)) (g : SGraph)
    (dt : List (String × ColType)) (tableName : String) : Except String BuildOutput :=
  if hasCyclicDependencies g then
    .error "The dependency graph contains cyclic dependencies."
  else
    let priorities := cols.map (fun p => (p.1, getOutgoingConnections g p.1))
    let level0 := priorities.filter (fun p => p.2 == 0)
    match createColumnsLoop dt (level0.map Prod.fst) with
    | .error e => .error e
    | .ok body =>
        let createStmt := "CREATE TABLE IF NOT EXISTS " ++ tableName ++ " (" ++ body
        let others := sortByLevel (priorities.filter (fun p => p.2 != 0))
        match buildAlters cols dt tableName others with
        | .error e => .error e
        | .ok alters => .ok ⟨createStmt, alters⟩

/-- The effective reference list a column contributes edges for: its
extractor result's columns when extraction succeeds reporting neither an
error nor constants, `[]` otherwise. -/
def effRefs (n : SqlNode) : List String :=
  match searchColumns n with
  | .ok refs => if refs.error.isSome || refs.constants then [] else refs.columns
  | .error _ => []

/-- Every edge endpoint names a vertex — the invariant igraph maintains for
any graph it hands out. -/
def SGraph.WellFormed (g : SGraph) : Prop :=
  ∀ e ∈ g.edges, e.1 ∈ g.vertices ∧ e.2 ∈ g.vertices

/-- The graph contains a directed cycle: a chain of edges that leaves some
vertex and returns to it (a column transitively referencing itself). -/
def SGraph.HasCycle (g : SGraph) : Prop :=
  ∃ (v : String) (p : List String),
    List.Chain (fun a b => (a, b) ∈ g.edges) v (p ++ [v])

end SqlBuild

namespace SqlBuild

/-- The two-column DDL scenario of the specification (and of the
sql-builder's own `main.py` example): `col1` a constant number, `col2` the
translated `IF(col1 > 18, 'Adult', 'Minor')` function node. -/
def adultCols : List (String × SqlNode) :=
  [("col1", .number 10 "10"),
   ("col2", .func "IF"
      (.cons (.binaryExpression ">" (.cell "A1" .relative "col1" none "col1")
          (.number 18 "18") "(col1) > (18)")
        (.cons (.text "Adult" "'Adult'") (.cons (.text "Minor" "'Minor'") .nil)))
      "CASE WHEN (col1) > (18) THEN 'Adult' ELSE 'Minor' END")]

/-- The SQL types supplied for the two columns of the scenario. -/
def adultDtypes : List (String × ColType) :=
  [("col1", ⟨"INTEGER", none⟩), ("col2", ⟨"TEXT", none⟩)]

/-- The dependency graph `create_dependency_graph` builds for the scenario:
both columns as vertices, one edge `col2 → col1`. -/
def adultGraph : SGraph :=
  ⟨["col1", "col2"], [("col2", "col1")]⟩

end SqlBuild

namespace DdlGen

theorem lookupAll_ok_of_forall (cmap : List (String × String)) :
    ∀ (l : List String), (∀ c ∈ l, (lookupD cmap c).isSome) →
      lookupAll cmap l = .ok (l.map (fun c => (lookupD cmap c).getD ""))
  | [], _ => rfl
  | c :: rest, h => by
      obtain ⟨v, hv⟩ := Option.isSome_iff_exists.mp (h c (by simp))
      have ih := lookupAll_ok_of_forall cmap rest (fun d hd => h d (by simp [hd]))
      simp only [lookupAll, hv, ih, List.map_cons]
      simp [hv]

theorem lookupAll_error_of_exists (cmap : List (String × String)) :
    ∀ (l : List String), (∃ c ∈ l, lookupD cmap c = none) →
      ∃ e, lookupAll cmap l = .error e
  | c :: rest, h => by
      cases hc : lookupD cmap c with
      | none => exact ⟨keyErrRepr c, by simp [lookupAll, hc]⟩
      | some v =>
          have hrest : ∃ d ∈ rest, lookupD cmap d = none := by
            obtain ⟨d, hd, hnone⟩ := h
            rcases List.mem_cons.mp hd with rfl | hd'
            · rw [hc] at hnone; cases hnone
            · exact ⟨d, hd', hnone⟩
          obtain ⟨e, he⟩ := lookupAll_error_of_exists cmap rest hrest
          exact ⟨e, by simp [lookupAll, hc, he]⟩

end DdlGen

/-- C5 (counterexample): a cell-range operand of a binary expression is
itself translatable (its translation succeeds), yet translating the binary
expression raises — `binary_maps` reads `left['sql']` and a cell-range
output has no `sql` key — so the binary node's SQL is not produced at all,
contradicting the claim for these two translatable operands. -/
theorem binary_range_operand_raises :
    DdlGen.translate [("A", "x"), ("B", "y")]
        (.cellRange (.cell "A1" .relative) (.cell "B1" .relative)) =
      .ok (.cellRange "A1" "B1" ["A", "B"] ["x", "y"] none) ∧
    DdlGen.translate [("A", "x"), ("B", "y")] (.number 5) = .ok (.number 5) ∧
    DdlGen.translate [("A", "x"), ("B", "y")]
        (.binary "+" (.cellRange (.cell "A1" .relative) (.cell "B1" .relative))
          (.number 5)) =
      .error "KeyError: 'sql'" :=
  ⟨rfl, rfl, rfl⟩

/-- C5 (amended): for every operator and any two operands whose translations
succeed and carry an `sql` field (every output variant except cell-range),
the binary expression's SQL is `"(" ++ left.sql ++ ") " ++ op ++ " (" ++
right.sql ++ ")"` — both operand fragments unconditionally parenthesized,
with no precedence-dependent omission. -/
theorem binary_sql_parenthesized (cmap : List (String × String)) (op : String)
    (l r : DdlGen.Ast) (ln rn : DdlGen.GenNode) (sl sr : String)
    (hl : DdlGen.translate cmap l = .ok ln) (hr : DdlGen.translate cmap r = .ok rn)
    (hsl : DdlGen.sqlInFString ln = .ok sl) (hsr : DdlGen.sqlInFString rn = .ok sr) :
    DdlGen.translate cmap (.binary op l r) =
      .ok (.binary op ln rn ("(" ++ sl ++ ") " ++ op ++ " (" ++ sr ++ ")")) := by
  simp [DdlGen.translate, hl, hr, hsl, hsr]

/-- C5 witness: `binary(+, cell(A1), number(5))` with `{A: col1}` translates
to SQL `(col1) + (5)`. -/
theorem binary_sql_parenthesized_witness :
    DdlGen.translate [("A", "col1")] (.binary "+" (.cell "A1" .relative) (.number 5)) =
      .ok (.binary "+" (.cell "A1" .relative "col1" none "col1") (.number 5)
        "(col1) + (5)") :=
  binary_sql_parenthesized [("A", "col1")] "+" (.cell "A1" .relative) (.number 5)
    (.cell "A1" .relative "col1" none "col1") (.number 5) "col1" "5" rfl rfl rfl rfl

/-- C6: translating a cell node whose column letters (after stripping every
`$` from the key) have no entry in the column mapping never raises: it
returns a cell output carrying the lookup failure, with `column` and `sql`
both the empty string. -/
theorem unmapped_cell_carries_error (cmap : List (String × String)) (key : String)
    (rt : RefType)
    (h : DdlGen.lookupD cmap (ColAddr.getColumnFromCell (ColAddr.stripDollar key)) = none) :
    DdlGen.translate cmap (.cell key rt) =
      .ok (.cell (ColAddr.stripDollar key) rt ""
        (some (DdlGen.keyErrRepr
          (ColAddr.getColumnFromCell (ColAddr.stripDollar key)))) "") := by
  simp [DdlGen.translate, h]

/-- C6 witness: `cell(Z1)` with a mapping lacking `Z` yields an errored node
with empty `column` and `sql`. -/
theorem unmapped_cell_carries_error_witness :
    DdlGen.translate [("A", "col1")] (.cell "Z1" .relative) =
      .ok (.cell "Z1" .relative "" (some "KeyError('Z')") "") :=
  unmapped_cell_carries_error [("A", "col1")] "Z1" .relative rfl

/-- C7: translating a cell-range node (with cell endpoints): when some
letter of the inclusive span between the endpoints is unmapped, the range
node comes back with `columns = []` and a non-null error (the whole range
fails, never partially); when every letter is mapped, the error is null and
`columns` lists the mapped SQL name of every letter in span order. -/
theorem cell_range_all_or_nothing (cmap : List (String × String)) (k1 k2 : String)
    (rt1 rt2 : RefType) :
    ((∃ c ∈ ColAddr.getColumnRange (ColAddr.getColumnFromCell (ColAddr.stripDollar k1))
        (ColAddr.getColumnFromCell (ColAddr.stripDollar k2)),
        DdlGen.lookupD cmap c = none) →
      ∃ e, DdlGen.translate cmap (.cellRange (.cell k1 rt1) (.cell k2 rt2)) =
        .ok (.cellRange (ColAddr.stripDollar k1) (ColAddr.stripDollar k2)
          (ColAddr.getColumnRange (ColAddr.getColumnFromCell (ColAddr.stripDollar k1))
            (ColAddr.getColumnFromCell (ColAddr.stripDollar k2))) [] (some e))) ∧
    ((∀ c ∈ ColAddr.getColumnRange (ColAddr.getColumnFromCell (ColAddr.stripDollar k1))
        (ColAddr.getColumnFromCell (ColAddr.stripDollar k2)),
        (DdlGen.lookupD cmap c).isSome) →
      DdlGen.translate cmap (.cellRange (.cell k1 rt1) (.cell k2 rt2)) =
        .ok (.cellRange (ColAddr.stripDollar k1) (ColAddr.stripDollar k2)
          (ColAddr.getColumnRange (ColAddr.getColumnFromCell (ColAddr.stripDollar k1))
            (ColAddr.getColumnFromCell (ColAddr.stripDollar k2)))
          ((ColAddr.getColumnRange (ColAddr.getColumnFromCell (ColAddr.stripDollar k1))
            (ColAddr.getColumnFromCell (ColAddr.stripDollar k2))).map
              (fun c => (DdlGen.lookupD cmap c).getD "")) none)) := by
  constructor
  · intro hex
    obtain ⟨e, he⟩ := DdlGen.lookupAll_error_of_exists cmap _ hex
    exact ⟨e, by simp [DdlGen.translate, he]⟩
  · intro hall
    have h := DdlGen.lookupAll_ok_of_forall cmap _ hall
    simp [DdlGen.translate, h]

/-- C7 witness: the range `Z1:Z1` with a mapping lacking `Z` fails as a
whole (`columns = []`, error set); the range `A1:B1` with `{A: x, B: y}`
resolves to `[x, y]` in span order with no error. -/
theorem cell_range_all_or_nothing_witness :
    (∃ e, DdlGen.translate [("A", "col1")]
        (.cellRange (.cell "Z1" .relative) (.cell "Z1" .relative)) =
      .ok (.cellRange "Z1" "Z1" ["Z"] [] (some e))) ∧
    DdlGen.translate [("A", "x"), ("B", "y")]
        (.cellRange (.cell "A1" .relative) (.cell "B1" .relative)) =
      .ok (.cellRange "A1" "B1" ["A", "B"] ["x", "y"] none) :=
  ⟨(cell_range_all_or_nothing [("A", "col1")] "Z1" "Z1" .relative .relative).1
      ⟨"Z", by decide, rfl⟩,
    (cell_range_all_or_nothing [("A", "x"), ("B", "y")] "A1" "B1" .relative .relative).2
      (by decide)⟩

/-- C8 (the claim is right, the code is wrong): the `MAPS` dispatcher of
`generator.py` has no entry for the `"text"` tag, although the external
interface lists `"text"` among the input node types and the sql-builder's
`dtypes.py` declares the `TextMapsOutput` node (with its single-quoted
`sql`) that only a text handler could produce.  Translating any text
literal therefore raises `KeyError` instead of returning a node whose `sql`
is the value wrapped in single quotes. -/
theorem text_node_translation_raises (v : String) (cmap : List (String × String)) :
    DdlGen.translate cmap (.text v) = .error "KeyError: 'text'" :=
  rfl

namespace SqlBuild

theorem addEdge_ok {g g' : SGraph} {a b : String} (h : addEdge g a b = .ok g') :
    g'.vertices = g.vertices ∧ g'.edges = g.edges ++ [(a, b)] := by
  unfold addEdge at h
  split at h
  · cases h; exact ⟨rfl, rfl⟩
  · cases h

theorem addEdge_error {g : SGraph} {a b : String} (h : b ∉ g.vertices) :
    addEdge g a b = .error "ValueError: cannot get vertex id of nonexistent name" := by
  unfold addEdge
  rw [if_neg]
  intro hc
  exact h hc.2

theorem addEdges_ok {name : String} :
    ∀ (rs : List String) (g g' : SGraph), addEdges name g rs = .ok g' →
      g'.vertices = g.vertices ∧ g'.edges = g.edges ++ rs.map (fun r => (name, r))
  | [], g, g', h => by cases h; simp
  | r :: rest, g, g', h => by
      unfold addEdges at h
      cases hadd : addEdge g name r with
      | error e => rw [hadd] at h; cases h
      | ok g1 =>
          rw [hadd] at h
          obtain ⟨hv1, he1⟩ := addEdge_ok hadd
          obtain ⟨hv, he⟩ := addEdges_ok rest g1 g' h
          refine ⟨hv.trans hv1, ?_⟩
          rw [he, he1]
          simp

theorem addEdges_error {name r : String} :
    ∀ (rs : List String) (g : SGraph), r ∈ rs → r ∉ g.vertices →
      ∃ e, addEdges name g rs = .error e
  | c :: rest, g, hmem, hnv => by
      unfold addEdges
      cases hadd : addEdge g name c with
      | error e => exact ⟨e, rfl⟩
      | ok g1 =>
          rcases List.mem_cons.mp hmem with rfl | hmem'
          · rw [addEdge_error hnv] at hadd; cases hadd
          · obtain ⟨hv1, _⟩ := addEdge_ok hadd
            exact addEdges_error rest g1 hmem' (hv1 ▸ hnv)

theorem buildGraphCols_ok :
    ∀ (l : List (String × SqlNode)) (g g' : SGraph), buildGraphCols g l = .ok g' →
      g'.vertices = g.vertices ∧
      g'.edges = g.edges ++ l.flatMap (fun p => (effRefs p.2).map (fun r => (p.1, r)))
  | [], g, g', h => by cases h; simp
  | (name, node) :: rest, g, g', h => by
      unfold buildGraphCols at h
      cases hs : searchColumns node with
      | error e => rw [hs] at h; cases h
      | ok refs =>
          rw [hs] at h
          dsimp only at h
          by_cases hskip : (refs.error.isSome || refs.constants) = true
          · rw [if_pos hskip] at h
            obtain ⟨hv, he⟩ := buildGraphCols_ok rest g g' h
            refine ⟨hv, ?_⟩
            have heff : effRefs node = [] := by
              unfold effRefs; rw [hs]; simp only [if_pos hskip]
            simp [he, heff]
          · rw [if_neg hskip] at h
            cases hadd : addEdges name g refs.columns with
            | error e => rw [hadd] at h; cases h
            | ok g1 =>
                rw [hadd] at h
                obtain ⟨hv1, he1⟩ := addEdges_ok refs.columns g g1 hadd
                obtain ⟨hv, he⟩ := buildGraphCols_ok rest g1 g' h
                have heff : effRefs node = refs.columns := by
                  unfold effRefs; rw [hs]; simp only [if_neg hskip]
                refine ⟨hv.trans hv1, ?_⟩
                rw [he, he1]
                simp [heff]

theorem createDependencyGraph_ok {cols : List (String × SqlNode)} {g : SGraph}
    (h : createDependencyGraph cols = .ok g) :
    g.vertices = cols.map Prod.fst ∧
    g.edges = cols.flatMap (fun p => (effRefs p.2).map (fun r => (p.1, r))) := by
  have := buildGraphCols_ok cols ⟨cols.map Prod.fst, []⟩ g h
  simpa using this

theorem searchColumns_ok_nodup {n : SqlNode} {refs : ColReferences}
    (h : searchColumns n = .ok refs) : refs.columns.Nodup := by
  cases n with
  | cell c rt column err sql => cases h; simp
  | cellRange a b cs columns err => cases h
  | number v sql => cases h; simp
  | binaryExpression op l r sql =>
      rw [searchColumns] at h
      cases hl : searchColumns l with
      | error e => rw [hl] at h; cases h
      | ok cl =>
          rw [hl] at h
          cases hr : searchColumns r with
          | error e => rw [hr] at h; cases h
          | ok cr => rw [hr] at h; cases h; exact List.nodup_dedup _
  | func name args sql =>
      rw [searchColumns] at h
      cases ha : searchColumnsList args with
      | error e => rw [ha] at h; cases h
      | ok cs => rw [ha] at h; cases h; exact List.nodup_dedup _
  | logical v sql => cases h; simp
  | text v sql => cases h; simp

theorem effRefs_nodup (n : SqlNode) : (effRefs n).Nodup := by
  unfold effRefs
  cases h : searchColumns n with
  | error e => simp
  | ok refs =>
      by_cases hskip : (refs.error.isSome || refs.constants) = true
      · simp [hskip]
      · simp only [if_neg hskip]
        exact searchColumns_ok_nodup h

end SqlBuild

namespace SqlBuild

theorem filter_map_key_all (name : String) (l : List String) :
    (l.map (fun r => (name, r))).filter (fun e => e.1 == name) =
      l.map (fun r => (name, r)) := by
  induction l with
  | nil => rfl
  | cons c rest ih => simp [ih]

theorem filter_map_key_none {k name : String} (h : k ≠ name) (l : List String) :
    (l.map (fun r => (k, r))).filter (fun e => e.1 == name) = [] := by
  induction l with
  | nil => rfl
  | cons c rest ih => simp [ih, h]

theorem filter_flatMap_not_mem {name : String} :
    ∀ (l : List (String × SqlNode)), name ∉ l.map Prod.fst →
      (l.flatMap (fun p => (effRefs p.2).map (fun r => (p.1, r)))).filter
        (fun e => e.1 == name) = []
  | [], _ => rfl
  | p :: rest, h => by
      have hp : p.1 ≠ name := fun hc => h (by simp [hc.symm])
      have hrest : name ∉ rest.map Prod.fst := fun hc => h (by simp [hc])
      simp only [List.flatMap_cons, List.filter_append]
      rw [filter_map_key_none hp, filter_flatMap_not_mem rest hrest]
      rfl

theorem filter_flatMap_key {name : String} {node : SqlNode} :
    ∀ (l : List (String × SqlNode)), (l.map Prod.fst).Nodup → (name, node) ∈ l →
      (l.flatMap (fun p => (effRefs p.2).map (fun r => (p.1, r)))).filter
        (fun e => e.1 == name) = (effRefs node).map (fun r => (name, r))
  | p :: rest, hnodup, hmem => by
      have hnodup' : (rest.map Prod.fst).Nodup := (List.nodup_cons.mp (by simpa using hnodup)).2
      have hhead : p.1 ∉ rest.map Prod.fst := (List.nodup_cons.mp (by simpa using hnodup)).1
      simp only [List.flatMap_cons, List.filter_append]
      rcases List.mem_cons.mp hmem with rfl | hmem'
      · rw [filter_map_key_all, filter_flatMap_not_mem rest hhead, List.append_nil]
      · have hp : p.1 ≠ name := by
          intro hc
          exact hhead (hc ▸ (List.mem_map.mpr ⟨(name, node), hmem', rfl⟩))
        rw [filter_map_key_none hp, filter_flatMap_key rest hnodup' hmem', List.nil_append]

/-- The out-degree `build_sql` reads off the graph built from the columns:
for a column of the input, it is the length of its effective reference
list. -/
theorem outdeg_eq_effRefs {cols : List (String × SqlNode)} {g : SGraph}
    {name : String} {node : SqlNode}
    (hnodup : (cols.map Prod.fst).Nodup) (hmem : (name, node) ∈ cols)
    (hg : createDependencyGraph cols = .ok g) :
    getOutgoingConnections g name = (effRefs node).length := by
  obtain ⟨hv, he⟩ := createDependencyGraph_ok hg
  have hnamemem : name ∈ g.vertices := by
    rw [hv]; exact List.mem_map.mpr ⟨(name, node), hmem, rfl⟩
  unfold getOutgoingConnections
  rw [if_pos (by simpa using hnamemem)]
  rw [he, filter_flatMap_key cols hnodup hmem, List.length_map]

theorem addEdge_wellFormed {g g' : SGraph} {a b : String} (hwf : g.WellFormed)
    (h : addEdge g a b = .ok g') : g'.WellFormed := by
  unfold addEdge at h
  split at h
  · next hmem =>
      cases h
      intro e he
      rcases List.mem_append.mp he with h1 | h2
      · exact hwf e h1
      · simp only [List.mem_singleton] at h2
        subst h2
        exact hmem
  · cases h

theorem addEdges_wellFormed {name : String} :
    ∀ (rs : List String) (g g' : SGraph), g.WellFormed → addEdges name g rs = .ok g' →
      g'.WellFormed
  | [], g, g', hwf, h => by cases h; exact hwf
  | r :: rest, g, g', hwf, h => by
      unfold addEdges at h
      cases hadd : addEdge g name r with
      | error e => rw [hadd] at h; cases h
      | ok g1 =>
          rw [hadd] at h
          exact addEdges_wellFormed rest g1 g' (addEdge_wellFormed hwf hadd) h

theorem buildGraphCols_wellFormed :
    ∀ (l : List (String × SqlNode)) (g g' : SGraph), g.WellFormed →
      buildGraphCols g l = .ok g' → g'.WellFormed
  | [], g, g', hwf, h => by cases h; exact hwf
  | (name, node) :: rest, g, g', hwf, h => by
      unfold buildGraphCols at h
      cases hs : searchColumns node with
      | error e => rw [hs] at h; cases h
      | ok refs =>
          rw [hs] at h
          dsimp only at h
          by_cases hskip : (refs.error.isSome || refs.constants) = true
          · rw [if_pos hskip] at h
            exact buildGraphCols_wellFormed rest g g' hwf h
          · rw [if_neg hskip] at h
            cases hadd : addEdges name g refs.columns with
            | error e => rw [hadd] at h; cases h
            | ok g1 =>
                rw [hadd] at h
                exact buildGraphCols_wellFormed rest g1 g'
                  (addEdges_wellFormed refs.columns g g1 hwf hadd) h

/-- Every graph `create_dependency_graph` returns satisfies igraph's
edge-endpoints-are-vertices invariant. -/
theorem createDependencyGraph_wellFormed {cols : List (String × SqlNode)} {g : SGraph}
    (h : createDependencyGraph cols = .ok g) : g.WellFormed :=
  buildGraphCols_wellFormed cols _ g (by intro e he; cases he) h

theorem buildGraphCols_error_aux {name : String} {node : SqlNode}
    {refs : ColReferences} {r : String}
    (hs : searchColumns node = .ok refs) (herr : refs.error = none)
    (hconst : refs.constants = false) (hr : r ∈ refs.columns) :
    ∀ (l : List (String × SqlNode)) (g : SGraph), (name, node) ∈ l → r ∉ g.vertices →
      ∃ e, buildGraphCols g l = .error e
  | (pn, pnode) :: rest, g, hmem, hrv => by
      unfold buildGraphCols
      cases hps : searchColumns pnode with
      | error e => exact ⟨e, rfl⟩
      | ok prefs =>
          dsimp only
          by_cases hskip : (prefs.error.isSome || prefs.constants) = true
          · rw [if_pos hskip]
            have hmem' : (name, node) ∈ rest := by
              rcases List.mem_cons.mp hmem with heq | h'
              · exfalso
                obtain ⟨h1, h2⟩ := Prod.mk.injEq .. ▸ heq
                subst h1; subst h2
                rw [hps] at hs
                cases hs
                rw [herr, hconst] at hskip
                simp at hskip
              · exact h'
            exact buildGraphCols_error_aux hs herr hconst hr rest g hmem' hrv
          · rw [if_neg hskip]
            cases hadd : addEdges pn g prefs.columns with
            | error e => exact ⟨e, rfl⟩
            | ok g1 =>
                have hmem' : (name, node) ∈ rest := by
                  rcases List.mem_cons.mp hmem with heq | h'
                  · exfalso
                    obtain ⟨h1, h2⟩ := Prod.mk.injEq .. ▸ heq
                    subst h1; subst h2
                    rw [hps] at hs
                    injection hs with hpr
                    have hr' : r ∈ prefs.columns := by rw [hpr]; exact hr
                    obtain ⟨e, he⟩ := @addEdges_error name r prefs.columns g hr' hrv
                    rw [he] at hadd
                    cases hadd
                  · exact h'
                have hrv1 : r ∉ g1.vertices := by
                  rw [(addEdges_ok prefs.columns g g1 hadd).1]
                  exact hrv
                exact buildGraphCols_error_aux hs herr hconst hr rest g1 hmem' hrv1

end SqlBuild

/-- C10: when some column's extracted, non-errored, non-constant reference
set names a column that is not among the input column names, the graph
build raises while adding that edge (there is no vertex of that name), so
the whole DDL build aborts with no graph — and hence no script — produced. -/
theorem dangling_reference_aborts (cols : List (String × SqlBuild.SqlNode))
    (name : String) (node : SqlBuild.SqlNode) (refs : SqlBuild.ColReferences) (r : String)
    (hmem : (name, node) ∈ cols)
    (hs : SqlBuild.searchColumns node = .ok refs)
    (herr : refs.error = none) (hconst : refs.constants = false)
    (hr : r ∈ refs.columns) (hout : r ∉ cols.map Prod.fst) :
    ∃ e, SqlBuild.createDependencyGraph cols = .error e := by
  unfold SqlBuild.createDependencyGraph
  exact SqlBuild.buildGraphCols_error_aux hs herr hconst hr cols _ hmem (by simpa using hout)

/-- C10 witness: a single column `a` whose cell node references `b`, a name
with no ColumnSpec: the graph build errors. -/
theorem dangling_reference_aborts_witness :
    ∃ e, SqlBuild.createDependencyGraph
      [("a", .cell "B1" .relative "b" none "b")] = .error e :=
  dangling_reference_aborts [("a", .cell "B1" .relative "b" none "b")]
    "a" (.cell "B1" .relative "b" none "b") ⟨["b"], none, false⟩ "b"
    (List.Mem.head _) rfl rfl rfl (List.Mem.head _) (by decide)

/-- C3 (counterexample): the extractor does not propagate a cell node's own
error — `search_columns_cell` returns `{columns: [column], error: None}`
even for a cell carrying an unresolved-reference error — and with the
errored cell's empty `column` string, graph construction raises while
adding the edge instead of succeeding with no edges. -/
theorem errored_cell_blocks_graph :
    SqlBuild.searchColumns (.cell "Z1" .relative "" (some "KeyError('Z')") "") =
      .ok ⟨[""], none, false⟩ ∧
    SqlBuild.createDependencyGraph
        [("a", .cell "Z1" .relative "" (some "KeyError('Z')") "")] =
      .error "ValueError: cannot get vertex id of nonexistent name" :=
  ⟨rfl, rfl⟩

/-- C3 (amended): a column whose extraction reports `isConstant=true` or a
non-null error contributes no edges to any successfully built dependency
graph.  (A cell node's own `error` field, however, is not consulted by the
extractor: the extraction comes back with `error=None` and the cell's
`column` string, so an errored cell — whose `column` is `""` — makes graph
construction raise rather than succeed; see the counterexample.) -/
theorem constant_or_errored_contributes_no_edges
    (cols : List (String × SqlBuild.SqlNode)) (g : SqlBuild.SGraph)
    (name : String) (node : SqlBuild.SqlNode) (refs : SqlBuild.ColReferences)
    (hnodup : (cols.map Prod.fst).Nodup) (hmem : (name, node) ∈ cols)
    (hs : SqlBuild.searchColumns node = .ok refs)
    (hskip : refs.constants = true ∨ refs.error.isSome = true)
    (hg : SqlBuild.createDependencyGraph cols = .ok g) :
    g.edges.filter (fun e => e.1 == name) = [] := by
  obtain ⟨hv, he⟩ := SqlBuild.createDependencyGraph_ok hg
  rw [he, SqlBuild.filter_flatMap_key cols hnodup hmem]
  have heff : SqlBuild.effRefs node = [] := by
    unfold SqlBuild.effRefs
    rw [hs]
    have : (refs.error.isSome || refs.constants) = true := by
      rcases hskip with h | h <;> simp [h]
    simp [this]
  rw [heff]
  rfl

/-- C3 witness: in the two-column graph `b → a` with `a` a constant number,
the constant column `a` contributes no edges. -/
theorem constant_or_errored_contributes_no_edges_witness :
    (SqlBuild.SGraph.mk ["a", "b"] [("b", "a")]).edges.filter
      (fun e => e.1 == "a") = [] :=
  constant_or_errored_contributes_no_edges
    [("a", .number 1 "1"), ("b", .cell "A1" .relative "a" none "a")]
    ⟨["a", "b"], [("b", "a")]⟩ "a" (.number 1 "1") ⟨[], none, true⟩
    (by decide) (List.Mem.head _) rfl (Or.inl rfl) rfl

namespace SqlBuild

theorem chain_pred {R : String → String → Prop} {a : String} {l : List String}
    (h : List.Chain R a l) : ∀ u ∈ l, ∃ s ∈ a :: l, R s u := by
  induction h with
  | nil => intro u hu; cases hu
  | @cons a b l hr hc ih =>
      intro u hu
      rcases List.mem_cons.mp hu with rfl | hu'
      · exact ⟨a, List.mem_cons_self .., hr⟩
      · obtain ⟨s, hs, hR⟩ := ih u hu'
        exact ⟨s, List.mem_cons_of_mem _ hs, hR⟩

/-- A cycle yields a nonempty vertex set each of whose members has an
incoming edge from inside the set. -/
theorem cycle_incoming {g : SGraph} (hcyc : g.HasCycle) :
    ∃ S : List String, S ≠ [] ∧ ∀ u ∈ S, ∃ s ∈ S, (s, u) ∈ g.edges := by
  obtain ⟨v, p, hchain⟩ := hcyc
  refine ⟨v :: p, List.cons_ne_nil v p, ?_⟩
  intro u hu
  have hmem2 : u ∈ p ++ [v] := by
    rcases List.mem_cons.mp hu with rfl | hu'
    · simp
    · exact List.mem_append_left _ hu'
  obtain ⟨s, hs, hR⟩ := chain_pred hchain u hmem2
  refine ⟨s, ?_, hR⟩
  rcases List.mem_cons.mp hs with rfl | hs'
  · simp
  · rcases List.mem_append.mp hs' with h1 | h2
    · exact List.mem_cons_of_mem _ h1
    · simp only [List.mem_singleton] at h2
      subst h2
      simp

/-- Kahn-style elimination never empties a vertex set containing a set in
which every member has an incoming edge from the set: the members are never
sources, so they and their witnessing edges survive every round. -/
theorem isDagAux_false {S : List String} (hne : S ≠ []) :
    ∀ (fuel : Nat) (verts : List String) (edges : List (String × String)),
      (∀ u ∈ S, ∃ s ∈ S, (s, u) ∈ edges) → (∀ e ∈ edges, e.2 ∈ verts) →
      isDagAux fuel verts edges = false := by
  intro fuel
  induction fuel with
  | zero =>
      intro verts edges hin hwf
      obtain ⟨u, hu⟩ := List.exists_mem_of_ne_nil S hne
      obtain ⟨s, hsS, hedge⟩ := hin u hu
      have hv : verts ≠ [] := List.ne_nil_of_mem (hwf (s, u) hedge)
      simp [isDagAux, List.isEmpty_iff, hv]
  | succ fuel ih =>
      intro verts edges hin hwf
      have hvne : verts ≠ [] := by
        obtain ⟨u, hu⟩ := List.exists_mem_of_ne_nil S hne
        obtain ⟨s, hsS, hedge⟩ := hin u hu
        exact List.ne_nil_of_mem (hwf (s, u) hedge)
      simp only [isDagAux]
      rw [if_neg (by simp [List.isEmpty_iff, hvne])]
      set sources := verts.filter (noIncoming edges) with hsrc
      have hnotin : ∀ u ∈ S, u ∉ sources := by
        intro u hu hmem
        obtain ⟨s, hsS, hedge⟩ := hin u hu
        have h2 := (List.mem_filter.mp hmem).2
        unfold noIncoming at h2
        rw [List.all_eq_true] at h2
        have := h2 (s, u) hedge
        simp at this
      by_cases hse : sources.isEmpty = true
      · rw [if_pos hse]
      · rw [if_neg hse]
        apply ih
        · intro u hu
          obtain ⟨s, hsS, hedge⟩ := hin u hu
          refine ⟨s, hsS, ?_⟩
          rw [List.mem_filter]
          exact ⟨hedge, by simp [hnotin s hsS]⟩
        · intro e he
          have he' := (List.mem_filter.mp he).1
          have h2v : e.2 ∈ verts := hwf e he'
          have h2notin : e.2 ∉ sources := by
            intro hmem
            have h2 := (List.mem_filter.mp hmem).2
            unfold noIncoming at h2
            rw [List.all_eq_true] at h2
            have := h2 e he'
            simp at this
          rw [List.mem_filter]
          exact ⟨h2v, by simp [h2notin]⟩

/-- A well-formed graph containing a cycle is reported as not a DAG. -/
theorem isDag_false_of_hasCycle {g : SGraph} (hwf : g.WellFormed)
    (hcyc : g.HasCycle) : g.isDag = false := by
  obtain ⟨S, hne, hin⟩ := cycle_incoming hcyc
  exact isDagAux_false hne g.vertices.length g.vertices g.edges hin
    (fun e he => (hwf e he).2)

end SqlBuild

/-- C1: for every DDL-build input whose dependency graph contains a cycle —
a chain of edges leaving some column and returning to it — `build_sql`
fails by raising before emitting anything: the whole build is the error
value, so no CREATE TABLE or ALTER TABLE text is produced. -/
theorem buildSql_error_on_cycle (cols : List (String × SqlBuild.SqlNode))
    (g : SqlBuild.SGraph) (dt : List (String × SqlBuild.ColType)) (t : String)
    (hwf : g.WellFormed) (hcyc : g.HasCycle) :
    SqlBuild.buildSql cols g dt t =
      .error "The dependency graph contains cyclic dependencies." := by
  have hc : SqlBuild.hasCyclicDependencies g = true := by
    unfold SqlBuild.hasCyclicDependencies
    simp [SqlBuild.isDag_false_of_hasCycle hwf hcyc]
  unfold SqlBuild.buildSql
  rw [if_pos hc]

/-- C1 witness: the spec's two-column cycle `colA → colB → colA` makes the
build fail with the cycle error. -/
theorem buildSql_error_on_cycle_witness :
    SqlBuild.buildSql [] ⟨["colA", "colB"], [("colB", "colA"), ("colA", "colB")]⟩
        [] "t" =
      .error "The dependency graph contains cyclic dependencies." :=
  buildSql_error_on_cycle [] ⟨["colA", "colB"], [("colB", "colA"), ("colA", "colB")]⟩
    [] "t"
    (by unfold SqlBuild.SGraph.WellFormed; decide)
    ⟨"colA", ["colB"], by
      refine List.Chain.cons ?_ (List.Chain.cons ?_ List.Chain.nil) <;> simp⟩

/-- C2 (counterexample): in the two-column scenario — `col1` a constant
number, `col2` the IF node with sql `CASE WHEN (col1) > (18) THEN 'Adult'
ELSE 'Minor' END` — the CREATE TABLE statement lists only `col1` and exactly
one ALTER TABLE statement is emitted for `col2`, but its generated
expression is **not** wrapped in parentheses: `build_sql` emits
`GENERATED ALWAYS AS {sql} STORED;` with the node's sql interpolated bare,
so the emitted statement differs from the claimed parenthesized one. -/
theorem ddl_scenario_alter_not_parenthesized :
    SqlBuild.createDependencyGraph SqlBuild.adultCols = .ok SqlBuild.adultGraph ∧
    SqlBuild.buildSql SqlBuild.adultCols SqlBuild.adultGraph SqlBuild.adultDtypes
        "test_table" =
      .ok ⟨"CREATE TABLE IF NOT EXISTS test_table (col1 INTEGER);",
        [(1, "ALTER TABLE test_table ADD COLUMN col2 TEXT GENERATED ALWAYS AS CASE WHEN (col1) > (18) THEN 'Adult' ELSE 'Minor' END STORED;")]⟩ ∧
    "ALTER TABLE test_table ADD COLUMN col2 TEXT GENERATED ALWAYS AS CASE WHEN (col1) > (18) THEN 'Adult' ELSE 'Minor' END STORED;" ≠
      "ALTER TABLE test_table ADD COLUMN col2 TEXT GENERATED ALWAYS AS (CASE WHEN (col1) > (18) THEN 'Adult' ELSE 'Minor' END) STORED;" :=
  ⟨rfl, rfl, by decide⟩

/-- C2 (amended): in that scenario the CREATE TABLE statement lists only
`col1`, and exactly one ALTER TABLE statement is emitted, adding `col2`
with the clause `GENERATED ALWAYS AS CASE WHEN (col1) > (18) THEN 'Adult'
ELSE 'Minor' END STORED;` — the generated expression interpolated without
wrapping parentheses. -/
theorem ddl_scenario_output :
    SqlBuild.createDependencyGraph SqlBuild.adultCols = .ok SqlBuild.adultGraph ∧
    SqlBuild.buildSql SqlBuild.adultCols SqlBuild.adultGraph SqlBuild.adultDtypes
        "test_table" =
      .ok ⟨"CREATE TABLE IF NOT EXISTS test_table (col1 INTEGER);",
        [(1, "ALTER TABLE test_table ADD COLUMN col2 TEXT GENERATED ALWAYS AS CASE WHEN (col1) > (18) THEN 'Adult' ELSE 'Minor' END STORED;")]⟩ :=
  ⟨rfl, rfl⟩

namespace SqlBuild

theorem level0_names {α : Type} (f : String → Nat) :
    ∀ (l : List (String × α)),
      ((l.map (fun p => (p.1, f p.1))).filter (fun p => p.2 == 0)).map Prod.fst =
        (l.map Prod.fst).filter (fun c => f c == 0)
  | [] => rfl
  | p :: rest => by
      by_cases h : f p.1 = 0
      · simp [h, level0_names f rest]
      · simp [h, level0_names f rest]

theorem mem_insertByLevel {x a : String × Nat} :
    ∀ (l : List (String × Nat)), (a ∈ insertByLevel x l ↔ a = x ∨ a ∈ l)
  | [] => by simp [insertByLevel]
  | y :: ys => by
      unfold insertByLevel
      by_cases h : x.2 ≤ y.2
      · simp [h]
      · simp only [if_neg h, List.mem_cons, mem_insertByLevel ys]
        tauto

theorem insertByLevel_pairwise {x : String × Nat} :
    ∀ {l : List (String × Nat)}, l.Pairwise (fun a b => a.2 ≤ b.2) →
      (insertByLevel x l).Pairwise (fun a b => a.2 ≤ b.2)
  | [], _ => by simp [insertByLevel]
  | y :: ys, h => by
      obtain ⟨hy, hys⟩ := List.pairwise_cons.mp h
      unfold insertByLevel
      by_cases hle : x.2 ≤ y.2
      · rw [if_pos hle]
        refine List.Pairwise.cons ?_ h
        intro b hb
        rcases List.mem_cons.mp hb with rfl | hb'
        · exact hle
        · exact le_trans hle (hy b hb')
      · rw [if_neg hle]
        refine List.Pairwise.cons ?_ (insertByLevel_pairwise hys)
        intro b hb
        rcases (mem_insertByLevel ys).mp hb with rfl | hb'
        · omega
        · exact hy b hb'

theorem sortByLevel_pairwise :
    ∀ (l : List (String × Nat)), (sortByLevel l).Pairwise (fun a b => a.2 ≤ b.2)
  | [] => by simp [sortByLevel]
  | x :: rest => by
      unfold sortByLevel
      exact insertByLevel_pairwise (sortByLevel_pairwise rest)

theorem mem_sortByLevel {a : String × Nat} :
    ∀ (l : List (String × Nat)), (a ∈ sortByLevel l ↔ a ∈ l)
  | [] => by simp [sortByLevel]
  | x :: rest => by
      unfold sortByLevel
      rw [List.foldr_cons, mem_insertByLevel, List.mem_cons]
      have := mem_sortByLevel (a := a) rest
      unfold sortByLevel at this
      tauto

theorem buildAlters_levels {cols : List (String × SqlNode)}
    {dt : List (String × ColType)} {t : String} :
    ∀ (l : List (String × Nat)) (ys : List (Nat × String)),
      buildAlters cols dt t l = .ok ys → ys.map Prod.fst = l.map Prod.snd
  | [], ys, h => by cases h; rfl
  | (c, lvl) :: rest, ys, h => by
      unfold buildAlters at h
      cases h1 : lookupD dt c with
      | none => rw [h1] at h; cases h
      | some ct =>
          rw [h1] at h
          cases h2 : lookupD cols c with
          | none => rw [h2] at h; cases h
          | some node =>
              rw [h2] at h
              dsimp only at h
              cases h3 : nodeSqlField node with
              | error e => rw [h3] at h; cases h
              | ok sql =>
                  rw [h3] at h
                  cases h4 : buildAlters cols dt t rest with
                  | error e => rw [h4] at h; cases h
                  | ok rest' =>
                      rw [h4] at h
                      cases h
                      have := buildAlters_levels rest rest' h4
                      simp [this]

theorem buildAlters_mem {cols : List (String × SqlNode)}
    {dt : List (String × ColType)} {t : String} :
    ∀ (l : List (String × Nat)) (ys : List (Nat × String)) (c : String) (lvl : Nat),
      buildAlters cols dt t l = .ok ys → (c, lvl) ∈ l → ∃ s, (lvl, s) ∈ ys
  | (c0, lvl0) :: rest, ys, c, lvl, h, hmem => by
      unfold buildAlters at h
      cases h1 : lookupD dt c0 with
      | none => rw [h1] at h; cases h
      | some ct =>
          rw [h1] at h
          cases h2 : lookupD cols c0 with
          | none => rw [h2] at h; cases h
          | some node =>
              rw [h2] at h
              dsimp only at h
              cases h3 : nodeSqlField node with
              | error e => rw [h3] at h; cases h
              | ok sql =>
                  rw [h3] at h
                  cases h4 : buildAlters cols dt t rest with
                  | error e => rw [h4] at h; cases h
                  | ok rest' =>
                      rw [h4] at h
                      cases h
                      rcases List.mem_cons.mp hmem with heq | hmem'
                      · obtain ⟨hc, hl⟩ := Prod.mk.injEq .. ▸ heq
                        subst hl
                        exact ⟨_, List.mem_cons_self ..⟩
                      · obtain ⟨s, hs⟩ := buildAlters_mem rest rest' c lvl h4 hmem'
                        exact ⟨s, List.mem_cons_of_mem _ hs⟩

end SqlBuild

/-- C4: for every acyclic DDL-build input (column set with duplicate-free
names, its dependency graph as built by `create_dependency_graph`, and a
successful `build_sql` run):
* the level `build_sql` assigns to each column — its out-degree in the
  graph — equals the number of distinct columns its expression effectively
  references (the deduplicated effective reference list of the extractor);
* the CREATE TABLE statement is the rendering of exactly the level-0
  columns, in input order;
* the ALTER TABLE statements carry ascending levels (grouped by level,
  levels in ascending numeric order), and every column of non-zero level
  contributes an ALTER statement at its own level. -/
theorem level_assignment_spec (cols : List (String × SqlBuild.SqlNode))
    (g : SqlBuild.SGraph) (dt : List (String × SqlBuild.ColType)) (t : String)
    (out : SqlBuild.BuildOutput)
    (hnodup : (cols.map Prod.fst).Nodup)
    (hg : SqlBuild.createDependencyGraph cols = .ok g)
    (hbuild : SqlBuild.buildSql cols g dt t = .ok out) :
    (∀ p ∈ cols, SqlBuild.getOutgoingConnections g p.1 =
      ((SqlBuild.effRefs p.2).dedup).length) ∧
    (∃ body, SqlBuild.createColumnsLoop dt
        ((cols.map Prod.fst).filter
          (fun c => SqlBuild.getOutgoingConnections g c == 0)) = .ok body ∧
      out.create = "CREATE TABLE IF NOT EXISTS " ++ t ++ " (" ++ body) ∧
    (out.alters.map Prod.fst).Pairwise (fun a b => a ≤ b) ∧
    (∀ p ∈ cols, SqlBuild.getOutgoingConnections g p.1 ≠ 0 →
      ∃ s, (SqlBuild.getOutgoingConnections g p.1, s) ∈ out.alters) := by
  have hlevel : ∀ p ∈ cols, SqlBuild.getOutgoingConnections g p.1 =
      ((SqlBuild.effRefs p.2).dedup).length := by
    intro p hp
    rw [List.dedup_eq_self.mpr (SqlBuild.effRefs_nodup p.2)]
    exact SqlBuild.outdeg_eq_effRefs hnodup hp hg
  refine ⟨hlevel, ?_⟩
  unfold SqlBuild.buildSql at hbuild
  by_cases hc : SqlBuild.hasCyclicDependencies g = true
  · rw [if_pos hc] at hbuild; cases hbuild
  · rw [if_neg hc] at hbuild
    dsimp only at hbuild
    cases hcl : SqlBuild.createColumnsLoop dt
        (((cols.map (fun p => (p.1, SqlBuild.getOutgoingConnections g p.1))).filter
          (fun p => p.2 == 0)).map Prod.fst) with
    | error e => rw [hcl] at hbuild; cases hbuild
    | ok body =>
        rw [hcl] at hbuild
        dsimp only at hbuild
        cases hba : SqlBuild.buildAlters cols dt t
            (SqlBuild.sortByLevel
              ((cols.map (fun p => (p.1, SqlBuild.getOutgoingConnections g p.1))).filter
                (fun p => p.2 != 0))) with
        | error e => rw [hba] at hbuild; cases hbuild
        | ok alters =>
            rw [hba] at hbuild
            cases hbuild
            refine ⟨⟨body, ?_, rfl⟩, ?_, ?_⟩
            · rw [← SqlBuild.level0_names (SqlBuild.getOutgoingConnections g) cols]
              exact hcl
            · rw [SqlBuild.buildAlters_levels _ _ hba, List.pairwise_map]
              exact SqlBuild.sortByLevel_pairwise _
            · intro p hp hlvl
              refine SqlBuild.buildAlters_mem _ _ p.1
                (SqlBuild.getOutgoingConnections g p.1) hba ?_
              rw [SqlBuild.mem_sortByLevel]
              rw [List.mem_filter]
              refine ⟨List.mem_map.mpr ⟨p, hp, rfl⟩, by simp [hlvl]⟩

/-- C4 witness: the two-column scenario — `col1` level 0 (no references),
`col2` level 1 (one distinct reference) — satisfies every clause. -/
theorem level_assignment_spec_witness :
    (∀ p ∈ SqlBuild.adultCols,
      SqlBuild.getOutgoingConnections SqlBuild.adultGraph p.1 =
        ((SqlBuild.effRefs p.2).dedup).length) ∧
    (∃ body, SqlBuild.createColumnsLoop SqlBuild.adultDtypes
        ((SqlBuild.adultCols.map Prod.fst).filter
          (fun c => SqlBuild.getOutgoingConnections SqlBuild.adultGraph c == 0)) =
          .ok body ∧
      ("CREATE TABLE IF NOT EXISTS test_table (col1 INTEGER);" : String) =
        "CREATE TABLE IF NOT EXISTS " ++ "test_table" ++ " (" ++ body) ∧
    (([(1, "ALTER TABLE test_table ADD COLUMN col2 TEXT GENERATED ALWAYS AS CASE WHEN (col1) > (18) THEN 'Adult' ELSE 'Minor' END STORED;")].map Prod.fst).Pairwise (fun a b : Nat => a ≤ b)) ∧
    (∀ p ∈ SqlBuild.adultCols,
      SqlBuild.getOutgoingConnections SqlBuild.adultGraph p.1 ≠ 0 →
      ∃ s, (SqlBuild.getOutgoingConnections SqlBuild.adultGraph p.1, s) ∈
        [((1 : Nat), "ALTER TABLE test_table ADD COLUMN col2 TEXT GENERATED ALWAYS AS CASE WHEN (col1) > (18) THEN 'Adult' ELSE 'Minor' END STORED;")]) :=
  level_assignment_spec SqlBuild.adultCols SqlBuild.adultGraph SqlBuild.adultDtypes
    "test_table"
    ⟨"CREATE TABLE IF NOT EXISTS test_table (col1 INTEGER);",
      [(1, "ALTER TABLE test_table ADD COLUMN col2 TEXT GENERATED ALWAYS AS CASE WHEN (col1) > (18) THEN 'Adult' ELSE 'Minor' END STORED;")]⟩
    (by decide) rfl rfl

namespace ColAddr

theorem idxAux_zero : ∀ (fuel : Nat), idxAux fuel 0 = []
  | 0 => rfl
  | fuel + 1 => by simp [idxAux]

theorem idxAux_step {fuel n : Nat} (hn : n ≠ 0) :
    idxAux (fuel + 1) n =
      idxAux fuel ((n - 1) / 26) ++ [Char.ofNat ((n - 1) % 26 + 65)] := by
  simp [idxAux, hn]

theorem idxAux_small {fuel n : Nat} (h26 : n ≤ 26) (hf : n ≤ fuel) (hn : n ≠ 0) :
    idxAux fuel n = [Char.ofNat (n - 1 + 65)] := by
  cases fuel with
  | zero => omega
  | succ f =>
      rw [idxAux_step hn]
      have hdiv : (n - 1) / 26 = 0 := Nat.div_eq_of_lt (by omega)
      have hmod : (n - 1) % 26 = n - 1 := Nat.mod_eq_of_lt (by omega)
      rw [hdiv, hmod, idxAux_zero]
      rfl

theorem char_toUpper_fix {c : Char} (h : c.toNat ≤ 90) : c.toUpper = c := by
  unfold Char.toUpper
  rw [if_neg]
  omega

theorem char_ofNat_toNat {c : Char} (h : c.toNat ≤ 90) : Char.ofNat c.toNat = c := by
  have hval : c.toNat.isValidChar := Or.inl (by omega)
  rw [Char.ofNat, dif_pos hval]
  apply Char.ext
  rfl

end ColAddr

/-- C9: for every uppercase one- or two-letter column sequence (the range
"A" through "ZZ"), converting the letters to their 1-based index and back
returns the original letters: `index_to_excel_col(excel_col_to_index(c)) ==
c`. -/
theorem col_letters_roundtrip (s : String)
    (hlen : s.toList.length = 1 ∨ s.toList.length = 2)
    (hchars : ∀ c ∈ s.toList, 65 ≤ c.toNat ∧ c.toNat ≤ 90) :
    ColAddr.indexToExcelCol (ColAddr.excelColToIndex s) = s := by
  obtain ⟨data⟩ := s
  match data, hlen with
  | [a], _ =>
      obtain ⟨ha1, ha2⟩ := hchars a (by simp)
      have hup : a.toUpper = a := ColAddr.char_toUpper_fix ha2
      have hidx : ColAddr.excelColToIndex ⟨[a]⟩ = (a.toNat : Int) - 64 := by
        simp [ColAddr.excelColToIndex, hup]
        ring
      rw [hidx]
      unfold ColAddr.indexToExcelCol
      have htn : ((a.toNat : Int) - 64).toNat = a.toNat - 64 := by omega
      rw [htn]
      rw [ColAddr.idxAux_small (by omega) le_rfl (by omega)]
      have : a.toNat - 64 - 1 + 65 = a.toNat := by omega
      rw [this, ColAddr.char_ofNat_toNat ha2]
      rfl
  | [a, b], _ =>
      obtain ⟨ha1, ha2⟩ := hchars a (by simp)
      obtain ⟨hb1, hb2⟩ := hchars b (by simp)
      have hupa : a.toUpper = a := ColAddr.char_toUpper_fix ha2
      have hupb : b.toUpper = b := ColAddr.char_toUpper_fix hb2
      have hidx : ColAddr.excelColToIndex ⟨[a, b]⟩ =
          ((a.toNat : Int) - 64) * 26 + ((b.toNat : Int) - 64) := by
        simp [ColAddr.excelColToIndex, hupa, hupb]
        ring
      rw [hidx]
      unfold ColAddr.indexToExcelCol
      set n : Nat := (a.toNat - 64) * 26 + (b.toNat - 64) with hn
      have htn : (((a.toNat : Int) - 64) * 26 + ((b.toNat : Int) - 64)).toNat = n := by
        rw [hn]; omega
      rw [htn]
      have hnbig : 27 ≤ n := by rw [hn]; omega
      have hsucc : n = (n - 1) + 1 := by omega
      rw [hsucc, ColAddr.idxAux_step (by omega)]
      have hdiv : (n - 1 + 1 - 1) / 26 = a.toNat - 64 := by
        have hexp : n - 1 + 1 - 1 = 26 * (a.toNat - 64) + (b.toNat - 65) := by
          rw [hn]; omega
        rw [hexp, Nat.mul_add_div (by omega)]
        have hz : (b.toNat - 65) / 26 = 0 := Nat.div_eq_of_lt (by omega)
        omega
      have hmod : (n - 1 + 1 - 1) % 26 = b.toNat - 65 := by
        have : n - 1 + 1 - 1 = 26 * (a.toNat - 64) + (b.toNat - 65) := by rw [hn]; omega
        rw [this, Nat.mul_add_mod]
        exact Nat.mod_eq_of_lt (by omega)
      rw [hdiv, hmod]
      rw [ColAddr.idxAux_small (by omega) (by omega) (by omega)]
      have h1 : a.toNat - 64 - 1 + 65 = a.toNat := by omega
      have h2 : b.toNat - 65 + 65 = b.toNat := by omega
      rw [h1, h2, ColAddr.char_ofNat_toNat ha2, ColAddr.char_ofNat_toNat hb2]
      rfl

/-- C9 witness: the largest element of the stated domain, `ZZ` (index 702),
roundtrips. -/
theorem col_letters_roundtrip_witness :
    ColAddr.indexToExcelCol (ColAddr.excelColToIndex "ZZ") = "ZZ" :=
  col_letters_roundtrip "ZZ" (by decide) (by decide)
